import Mathlib

/-!
Verification development for flashing_tool.py, a controller that drives the
interactive external program upgrade_tool over a pseudoterminal.

The pure text-processing parts (the progress regex and the device-descriptor
regex fed to re.findall) are embedded character by character below.  The
stateful session controller (class UpgradeTool) is embedded as explicit state
passing over a script of transcript-reader results: each pexpect expect call
consumes one oracle event describing which pattern matched (or that the
stream ended, or that the call timed out) together with the before-text, and
the controller logic on top of those results is translated statement by
statement from the source.
-/

/-! ## Character classes (ASCII semantics of the regex classes used) -/

/-- The regex class \d, on ASCII text: the characters 0 to 9. -/
def isDigitC (c : Char) : Bool := 48 ≤ c.toNat && c.toNat ≤ 57

/-- The regex class [0-9A-Fa-f] used for the Vid and Pid fields. -/
def isHexC (c : Char) : Bool :=
  (48 ≤ c.toNat && c.toNat ≤ 57) || (65 ≤ c.toNat && c.toNat ≤ 70) ||
    (97 ≤ c.toNat && c.toNat ≤ 102)

/-- The regex class \s, on ASCII text: space, tab, newline, carriage return,
vertical tab, form feed. -/
def isSpaceC (c : Char) : Bool :=
  c.toNat = 32 || c.toNat = 9 || c.toNat = 10 || c.toNat = 13 ||
    c.toNat = 11 || c.toNat = 12

/-- Value of a digit string, as Python int() computes it on a \d+ match
(leading zeros allowed). -/
def digitsVal (ds : List Char) : Nat :=
  ds.foldl (fun a c => 10 * a + (c.toNat - 48)) 0

/-- Match a literal string at the head of the input, returning the rest. -/
def dropLit : List Char → List Char → Option (List Char)
  | [], cs => some cs
  | _ :: _, [] => none
  | l :: ls, c :: cs => if c = l then dropLit ls cs else none

/-- Is the first list a contiguous run inside the second?  Models the Python
substring test (needle in haystack). -/
def prefixOf : List Char → List Char → Bool
  | [], _ => true
  | _ :: _, [] => false
  | a :: as, b :: bs => a = b && prefixOf as bs

def infixOf (n : List Char) : List Char → Bool
  | [] => prefixOf n []
  | b :: bs => prefixOf n (b :: bs) || infixOf n bs

/-- Python: needle in haystack. -/
def strContains (hay needle : String) : Bool := infixOf needle.data hay.data

/-! ## Progress parser

flashing_tool.py line 175 waits for the pattern
Write LBA from file \(\d+%\) and line 179 extracts the digit group of the
matched text with re.search \((\d+)%\).  Since the expect pattern is a
literal around a single digit run, the extracted group is exactly that run;
parseProgress returns its integer value for the leftmost match. -/

/-- Try to match the marker Write LBA from file (NN%) at the current
position; return the value of the digit run. -/
def matchProgAt (cs : List Char) : Option Nat :=
  match dropLit "Write LBA from file (".data cs with
  | none => none
  | some cs =>
    match cs.takeWhile isDigitC with
    | [] => none
    | ds =>
      match dropLit "%)".data (cs.dropWhile isDigitC) with
      | none => none
      | some _ => some (digitsVal ds)

/-- Leftmost search for the progress marker over a line, as re.search does. -/
def parseProgress : List Char → Option Nat
  | [] => none
  | c :: cs =>
    match matchProgAt (c :: cs) with
    | some p => some p
    | none => parseProgress cs

/-! ## Device parser

flashing_tool.py line 97:
re.findall(DevNo\s*=\s*(\d+)\DVid=0x([0-9A-Fa-f]+),Pid=0x([0-9A-Fa-f]+),LocationID=(\d+))
followed by line 99: the RadxaDevice list built from the group tuples, DevNo
and LocationID through int().  Every quantified class in the pattern is
followed by a character outside the class, so greedy maximal-munch matching
agrees with the backtracking engine, and findall is the usual leftmost,
non-overlapping scan that advances one character on failure. -/

structure RadxaDevice where
  devno : Nat
  vid : String
  pid : String
  location_id : Nat
deriving DecidableEq, Repr

def litDevNo : List Char := "DevNo".data
def litVid : List Char := "Vid=0x".data
def litPid : List Char := ",Pid=0x".data
def litLoc : List Char := ",LocationID=".data

/-- Stage after ,LocationID= : a nonempty digit run, group 4. -/
def descLoc (dn : Nat) (v p : List Char) (cs : List Char) :
    Option (RadxaDevice × List Char) :=
  match dropLit litLoc cs with
  | none => none
  | some cs7 =>
    match cs7.takeWhile isDigitC with
    | [] => none
    | ls => some (⟨dn, ⟨v⟩, ⟨p⟩, digitsVal ls⟩, cs7.dropWhile isDigitC)

/-- Stage after the Vid hex run: ,Pid=0x then a nonempty hex run, group 3. -/
def descPid (dn : Nat) (v : List Char) (cs : List Char) :
    Option (RadxaDevice × List Char) :=
  match dropLit litPid cs with
  | none => none
  | some cs6 =>
    match cs6.takeWhile isHexC with
    | [] => none
    | _ => descLoc dn v (cs6.takeWhile isHexC) (cs6.dropWhile isHexC)

/-- Stage after the single \D separator: Vid=0x then a nonempty hex run,
group 2. -/
def descVid (dn : Nat) (cs : List Char) : Option (RadxaDevice × List Char) :=
  match dropLit litVid cs with
  | none => none
  | some cs5 =>
    match cs5.takeWhile isHexC with
    | [] => none
    | _ => descPid dn (cs5.takeWhile isHexC) (cs5.dropWhile isHexC)

/-- Stage after \s*=\s* : a nonempty digit run (group 1) then one arbitrary
non-digit character (the \D in the source pattern). -/
def descDigits (cs : List Char) : Option (RadxaDevice × List Char) :=
  match cs.takeWhile isDigitC with
  | [] => none
  | ds =>
    match cs.dropWhile isDigitC with
    | [] => none
    | sep :: cs4 => if isDigitC sep then none else descVid (digitsVal ds) cs4

/-- Stage after the literal DevNo: \s* then = then \s*. -/
def descAfter (cs : List Char) : Option (RadxaDevice × List Char) :=
  match cs.dropWhile isSpaceC with
  | c :: cs2 => if c = '=' then descDigits (cs2.dropWhile isSpaceC) else none
  | [] => none

/-- Try to match the full descriptor pattern at the current position. -/
def matchDescAt (cs : List Char) : Option (RadxaDevice × List Char) :=
  match dropLit litDevNo cs with
  | none => none
  | some cs1 => descAfter cs1

/-- The findall scan: try the pattern at every position, left to right; on a
match, record the device and continue after the matched text.  The fuel
argument bounds the number of scan steps; every step consumes at least one
character (matchDescAt consumes the five characters of DevNo and more), so
starting the fuel at the length of the text is enough, which the lemma
findallF_fuel below makes precise. -/
def findallF : Nat → List Char → List RadxaDevice
  | 0, _ => []
  | _ + 1, [] => []
  | fuel + 1, c :: cs =>
    match matchDescAt (c :: cs) with
    | some (d, rest) => d :: findallF fuel rest
    | none => findallF fuel cs

def parseDevicesL (cs : List Char) : List RadxaDevice := findallF cs.length cs

/-- The device parser applied to the before-text of the discovery prompt. -/
def parseDevices (out : String) : List RadxaDevice := parseDevicesL out.data

/-! ## Renderers used to build test inputs for the parser theorems -/

/-- Decimal rendering of a natural number (digit characters, most significant
first); test-input builder, not part of the embedded program. -/
def renderNat (n : Nat) : List Char :=
  if n = 0 then ['0'] else (Nat.digits 10 n).reverse.map Nat.digitChar

/-- The canonical descriptor line of the spec:
DevNo=[int],Vid=0x[hex],Pid=0x[hex],LocationID=[int]. -/
def renderDev (d : RadxaDevice) : List Char :=
  litDevNo ++ '=' :: (renderNat d.devno ++ ',' :: (litVid ++ (d.vid.data ++
    (litPid ++ (d.pid.data ++ (litLoc ++ renderNat d.location_id))))))

/-- A discovery text block: one descriptor line or one noise line. -/
inductive Block where
  | dev (d : RadxaDevice)
  | noise (l : List Char)

/-- Each block rendered as a line followed by a newline. -/
def renderBlocks : List Block → List Char
  | [] => []
  | .dev d :: bs => renderDev d ++ '\n' :: renderBlocks bs
  | .noise l :: bs => l ++ '\n' :: renderBlocks bs

def blockDevs (bs : List Block) : List RadxaDevice :=
  bs.filterMap fun b => match b with | .dev d => some d | .noise _ => none

/-- Device fields compatible with the descriptor format: nonempty hex Vid
and Pid. -/
def goodDev (d : RadxaDevice) : Prop :=
  d.vid.data ≠ [] ∧ (∀ c ∈ d.vid.data, isHexC c = true) ∧
    d.pid.data ≠ [] ∧ (∀ c ∈ d.pid.data, isHexC c = true)

/-- Noise lines whose characters never open a descriptor match. -/
def goodNoise (l : List Char) : Prop := ∀ c ∈ l, c ≠ 'D'

/-- Spec-side predicate, following the words of the claim: the line is
exactly a well-formed descriptor
DevNo=[int],Vid=0x[hex],Pid=0x[hex],LocationID=[int]
with nothing before or after. -/
def specDescLine (l : List Char) : Bool :=
  match dropLit litDevNo l with
  | none => false
  | some l1 =>
    match l1 with
    | c :: l2 =>
      if c ≠ '=' then false else
      match l2.takeWhile isDigitC with
      | [] => false
      | _ =>
        match dropLit (',' :: litVid) (l2.dropWhile isDigitC) with
        | none => false
        | some l3 =>
          match l3.takeWhile isHexC with
          | [] => false
          | _ =>
            match dropLit litPid (l3.dropWhile isHexC) with
            | none => false
            | some l4 =>
              match l4.takeWhile isHexC with
              | [] => false
              | _ =>
                match dropLit litLoc (l4.dropWhile isHexC) with
                | none => false
                | some l5 =>
                  match l5.takeWhile isDigitC with
                  | [] => false
                  | _ => (l5.dropWhile isDigitC).isEmpty
    | [] => false

/-! ## Session controller

The UpgradeTool class, embedded as explicit state passing.  A script of
events plays the role of the transcript reader: every expect call of the
source consumes the next event, which records which of the patterns of that
call matched and the before-text.  The pexpect semantics embedded in the
event handling:
  - when pexpect.EOF is in the pattern list (first expect of
    initial_prompt, and the progress wait of writing_lba), end of stream is
    returned as a match index, not raised;
  - when it is not (the Found-count expect, the Rockusb prompt of
    run_upgrade), end of stream raises the EOF exception, caught only by
    the try of run (line 76);
  - when pexpect.TIMEOUT is in the pattern list (upgrade_loader and
    write_lba), a timeout is returned as an index; the source never
    inspects the returned index in those two functions and classifies the
    before-text the same way in both cases, so one event carrying the
    before-text covers the match case and the timeout case, and the
    except pexpect.TIMEOUT handlers at lines 146 and 167 are dead code. -/

/-- One transcript-reader result, consumed by one expect call. -/
inductive Ev where
  /-- The first expect of initial_prompt matched the Rescan/Quit prompt;
  the payload is the before-text. -/
  | init (before : String)
  /-- The first expect of initial_prompt hit end of stream (returned as
  index 1, since pexpect.EOF is in its pattern list). -/
  | initEof (before : String)
  /-- The Found (count) rockusb expect matched; the payload is the integer
  of the count group. -/
  | found (count : Nat)
  /-- The Rockusb prompt expect of run_upgrade matched. -/
  | rockusb
  /-- The expect of upgrade_loader returned (match or timeout); the payload
  is the before-text. -/
  | loader (before : String)
  /-- The expect of write_lba returned (match or timeout); the payload is
  the before-text. -/
  | writeResp (before : String)
  /-- The progress expect of writing_lba matched; the payload is the
  matched text, group 0 of the progress pattern. -/
  | progress (t : String)
  /-- The progress expect of writing_lba hit end of stream (returned as an
  index, since pexpect.EOF is in its pattern list). -/
  | wlEof
  /-- End of stream at an expect whose pattern list does not contain
  pexpect.EOF: the pexpect.EOF exception is raised. -/
  | eofExn
deriving DecidableEq, Repr

/-- One reporter-visible output line of the controller (logging calls and
the progress bar writes), with the data it interpolates. -/
inductive LogMsg where
  /-- logging.error at line 77: an error occurred during the upgrade
  process. -/
  | errorUpgradeProcess
  /-- logging.info at line 69: no Radxa devices found. -/
  | noDevices
  /-- logging.info Maskrom remediation hint (lines 70, 140, 159). -/
  | maskromHint
  /-- logging.info at line 88: no Rescan prompt found. -/
  | noRescanPrompt
  /-- logging.info at line 136: upgrade loader succeeded. -/
  | loaderOk (location : Nat)
  /-- logging.error at line 139: upgrade loader command failed. -/
  | loaderFail (location : Nat)
  /-- logging.error at line 143: unknown error. -/
  | unknowError (location : Nat)
  /-- logging.error at line 158: write LBA failed. -/
  | writeLbaFailed (location : Nat)
  /-- logging.info at line 163: writing LBA. -/
  | writingLba (location : Nat)
  /-- sys.stdout.write at line 185: the progress bar for a new
  percentage. -/
  | progressOut (p : Nat)
  /-- logging.info at line 190: write process completed. -/
  | writeCompleted
deriving DecidableEq, Repr

/-- How a call of the embedded controller ends. -/
inductive Outcome where
  /-- Normal return. -/
  | ok
  /-- The pexpect.EOF exception is propagating. -/
  | eofE
  /-- The control flow never returns: the writing_lba loop keeps
  re-matching end of stream forever. -/
  | diverged
  /-- The script does not provide an event of the kind this expect call can
  produce (ill-formed script; no source behavior is modeled by it). -/
  | stuck
  /-- Unhandled AttributeError: re.search at line 179 returned None. -/
  | crashed
deriving DecidableEq, Repr

/-- The mutable attributes of an UpgradeTool object. -/
structure St where
  ul_file : String
  im_file : String
  command : String
  /-- The spawned child process (the command it runs), none before run. -/
  child : Option String
  numDevices : Nat
  devices : List RadxaDevice
  /-- Every line sent to the child by sendline, in order (sendline appends
  a line terminator to each). -/
  sent : List String
  /-- Every reporter-visible line emitted, in order. -/
  log : List LogMsg
deriving DecidableEq, Repr

def sendline (s : St) (c : String) : St := { s with sent := s.sent ++ [c] }

def logM (s : St) (m : LogMsg) : St := { s with log := s.log ++ [m] }

/-- expect_initial_prompt (lines 79-80): expect([Rescan/Quit prompt,
pexpect.EOF]); either way the call returns, and the caller reads the
before-text. -/
def expect_initial_prompt : List Ev → Option (String × List Ev)
  | .init b :: evs => some (b, evs)
  | .initEof b :: evs => some (b, evs)
  | _ => none

/-- after_complete: the tail of writing_lba after the loop breaks
(lines 196-197): sendline cd, then re-await the initial prompt, result
ignored. -/
def after_complete (s : St) (evs : List Ev) : Outcome × St × List Ev :=
  let s := sendline s "cd"
  match expect_initial_prompt evs with
  | some (_, evs) => (.ok, s, evs)
  | none => (.stuck, s, evs)

/-- The while loop of writing_lba (lines 173-191).  last is
last_percentage.  On a progress match the percentage is extracted from the
matched text; a changed percentage updates last_percentage and writes the
progress bar; 100 breaks the loop.  On end of stream the expect returns
index 1, the loop body does nothing and the next iteration matches end of
stream again, forever: outcome diverged.  The while/else clause at line 193
is attached to while True and therefore dead code. -/
def writing_lba_go (s : St) (last : Int) : List Ev → Outcome × St × List Ev
  | .progress t :: evs =>
    match parseProgress t.data with
    | none => (.crashed, s, evs)
    | some p =>
      if (p : Int) ≠ last then
        let s := logM s (.progressOut p)
        if p = 100 then after_complete (logM s .writeCompleted) evs
        else writing_lba_go s (p : Int) evs
      else
        if p = 100 then after_complete (logM s .writeCompleted) evs
        else writing_lba_go s last evs
  | .wlEof :: evs => (.diverged, s, evs)
  | evs => (.stuck, s, evs)

/-- writing_lba (line 172): the loop starts with last_percentage = -1. -/
def writing_lba (s : St) (evs : List Ev) : Outcome × St × List Ev :=
  writing_lba_go s (-1) evs

/-- write_lba (lines 150-169): expect([Rockusb prompt, TIMEOUT], 20); a
before-text containing the write-rejected marker logs the failure and the
hint, anything else logs the writing message and enters the progress
loop. -/
def write_lba (s : St) (location : Nat) (evs : List Ev) :
    Outcome × St × List Ev :=
  match evs with
  | .writeResp b :: evs =>
    if strContains b "Write LBA failed!" then
      (.ok, logM (logM s (.writeLbaFailed location)) .maskromHint, evs)
    else
      writing_lba (logM s (.writingLba location)) evs
  | .eofExn :: evs => (.eofE, s, evs)
  | evs => (.stuck, s, evs)

/-- upgrade_loader (lines 129-148): expect([Rockusb prompt, TIMEOUT], 500);
the before-text is classified by substring into success, loader failure
(plus hint) or unknown error; all three classifications return normally. -/
def upgrade_loader (s : St) (location : Nat) (evs : List Ev) :
    Outcome × St × List Ev :=
  match evs with
  | .loader b :: evs =>
    if strContains b "Upgrade loader ok" then
      (.ok, logM s (.loaderOk location), evs)
    else if strContains b "Download Boot Fail" then
      (.ok, logM (logM s (.loaderFail location)) .maskromHint, evs)
    else
      (.ok, logM s (.unknowError location), evs)
  | .eofExn :: evs => (.eofE, s, evs)
  | evs => (.stuck, s, evs)

/-- send_upgrade_commands (lines 112-127): the for loop over the two
commands, unrolled: sendline ul, run upgrade_loader, sendline wl, run
write_lba.  Only a propagating exception from upgrade_loader stops the wl
command from being sent. -/
def send_upgrade_commands (s : St) (device_location : Nat) (evs : List Ev) :
    Outcome × St × List Ev :=
  let s := sendline s ("ul " ++ s.ul_file ++ " -noreset")
  match upgrade_loader s device_location evs with
  | (.ok, s, evs) =>
    let s := sendline s ("wl 0 " ++ s.im_file)
    write_lba s device_location evs
  | r => r

/-- run_upgrade (lines 107-110): sendline str(devno), expect the Rockusb
prompt (pexpect.EOF not in the list, so end of stream raises), then the
upgrade commands. -/
def run_upgrade (s : St) (d : RadxaDevice) (evs : List Ev) :
    Outcome × St × List Ev :=
  let s := sendline s (Nat.repr d.devno)
  match evs with
  | .rockusb :: evs => send_upgrade_commands s d.location_id evs
  | .eofExn :: evs => (.eofE, s, evs)
  | evs => (.stuck, s, evs)

/-- initial_prompt (lines 83-102): await the first prompt, read the
before-text; the no-rockusb banner just logs; the selectable banner sends r
(rescan_devices, line 105), awaits the Found-count prompt (end of stream
raises there), stores the count and parses the devices out of the first
before-text. -/
def initial_prompt (s : St) (evs : List Ev) : Outcome × St × List Ev :=
  match expect_initial_prompt evs with
  | none => (.stuck, s, evs)
  | some (out, evs) =>
    if strContains out "No found rockusb" then
      (.ok, logM s .noRescanPrompt, evs)
    else if strContains out "Select input DevNo" then
      let s := sendline s "r"
      match evs with
      | .found n :: evs =>
        (.ok, { s with numDevices := n, devices := parseDevices out }, evs)
      | .eofExn :: evs => (.eofE, s, evs)
      | evs => (.stuck, s, evs)
    else
      (.ok, s, evs)

/-- The per-device for loop of run (lines 73-74). -/
def run_loop (s : St) : List RadxaDevice → List Ev → Outcome × St × List Ev
  | [], evs => (.ok, s, evs)
  | d :: ds, evs =>
    match run_upgrade s d evs with
    | (.ok, s, evs) => run_loop s ds evs
    | r => r

/-- run (lines 62-77): spawn the child, then under try: initial_prompt, the
empty-devices report, the per-device loop; except pexpect.EOF logs the
error and returns normally. -/
def run (s : St) (evs : List Ev) : Outcome × St × List Ev :=
  let s := { s with child := some s.command }
  match initial_prompt s evs with
  | (.ok, s, evs) =>
    if s.devices.isEmpty then
      (.ok, logM (logM s .noDevices) .maskromHint, evs)
    else
      match run_loop s s.devices evs with
      | (.eofE, s, evs) => (.ok, logM s .errorUpgradeProcess, evs)
      | r => r
  | (.eofE, s, evs) => (.ok, logM s .errorUpgradeProcess, evs)
  | r => r

/-- The attribute state right after a successful __init__. -/
def initSt (ul im command : String) : St :=
  { ul_file := ul, im_file := im, command := command, child := none,
    numDevices := 0, devices := [], sent := [], log := [] }

/-- __init__ (lines 36-60): the two os.path.exists checks against an
abstract filesystem; a missing path prints the message and exits with
status 1 (the loader path is checked first); otherwise the paths are stored
unchanged and no process is spawned. -/
def mkUpgradeTool (fs : String → Bool) (ul im command : String) :
    Except (String × Nat) St :=
  if fs ul then
    if fs im then .ok (initSt ul im command)
    else .error ("Image file path does not exist.", 1)
  else .error ("Upgrade loader file path does not exist.", 1)

/-- main (lines 200-213) and the process exit status: exit code 1 from a
failed __init__; otherwise run, and Python exits with status 0 whether or
not the EOF handler of run fired.  none models a process that never exits
(the diverged outcome, or an ill-formed script). -/
def mainExit (fs : String → Bool) (ul im : String) (evs : List Ev) :
    Option Nat :=
  match mkUpgradeTool fs ul im "sudo ./upgrade_tool" with
  | .error (_, code) => some code
  | .ok st =>
    match (run st evs).1 with
    | .ok => some 0
    | .eofE => some 0
    | _ => none

/-- The progress percentages emitted to the reporter, in order, read off an
output log. -/
def emittedPs (log : List LogMsg) : List Nat :=
  log.filterMap fun m => match m with | .progressOut p => some p | _ => none

/-! ## Auxiliary predicates and concrete test data for the theorems -/

/-- The head of the list, if any, fails the predicate. -/
def headNotC (p : Char → Bool) (l : List Char) : Prop :=
  ∀ c, l.head? = some c → p c = false

/-- The second state extends the first: same file paths, and the sent and
log histories of the first are prefixes of those of the second. -/
def StExt (s0 s1 : St) : Prop :=
  s1.ul_file = s0.ul_file ∧ s1.im_file = s0.im_file ∧
    (∃ t, s1.sent = s0.sent ++ t) ∧ ∃ u, s1.log = s0.log ++ u

/-- The fixed command vocabulary of the claim: rescan, a decimal device
index, the loader upload, the image write at block 0, and the return to the
top-level prompt. -/
def Vocab (ul im c : String) : Prop :=
  c = "r" ∨ (∃ n : Nat, c = Nat.repr n) ∨ c = "ul " ++ ul ++ " -noreset" ∨
    c = "wl 0 " ++ im ∨ c = "cd"

/-- Every command sent in the second state was either already sent in the
first or belongs to the command vocabulary. -/
def vocabNew (s0 s1 : St) : Prop :=
  ∀ c ∈ s1.sent, c ∈ s0.sent ∨ Vocab s0.ul_file s0.im_file c

/-- A controller step from s0 may reach s1: state extension plus the
vocabulary discipline for the newly sent commands. -/
def Steps (s0 s1 : St) : Prop := StExt s0 s1 ∧ vocabNew s0 s1

/-- The literal part of the progress pattern. -/
def litWL : List Char := "Write LBA from file (".data

/-- The exact text matched by the progress pattern for a percentage. -/
def progressMarker (n : Nat) : List Char := litWL ++ (renderNat n ++ ['%', ')'])

/-- A filesystem on which exactly the two paths L and I exist. -/
def fsBoth (p : String) : Bool := p == "L" || p == "I"

/-- Discovery before-text: selectable banner plus one descriptor line. -/
def discText1 : String :=
  "Select input DevNo\nDevNo=1,Vid=0xAA,Pid=0xBB,LocationID=3\n"

/-- Discovery before-text: selectable banner plus two descriptor lines. -/
def discText2 : String :=
  "Select input DevNo\nDevNo=1,Vid=0xAA,Pid=0xBB,LocationID=3\nDevNo=2,Vid=0xCC,Pid=0xDD,LocationID=4\n"

/-- Script: one device, loader upload answered with the failure marker,
then a write accepted and completing at 100 percent. -/
def c1script : List Ev :=
  [.init discText1, .found 1, .rockusb, .loader "Download Boot Fail",
    .writeResp "", .progress "Write LBA from file (100%)", .init ""]

/-- Script: two devices, the first write reaches 40 percent and then the
output stream ends. -/
def c2script : List Ev :=
  [.init discText2, .found 2, .rockusb, .loader "Upgrade loader ok",
    .writeResp "", .progress "Write LBA from file (40%)", .wlEof]

/-- Script: one device discovered, then end of stream at the Rockusb
prompt wait. -/
def c7script : List Ev := [.init discText1, .found 1, .eofExn]

/-- Script: one device flashed successfully end to end. -/
def c8okScript : List Ev :=
  [.init discText1, .found 1, .rockusb, .loader "Upgrade loader ok",
    .writeResp "", .progress "Write LBA from file (100%)", .init ""]

/-- Script: end of stream raises at the Rockusb prompt wait, the
session-fatal condition of the spec. -/
def c8eofScript : List Ev := [.init discText1, .found 1, .eofExn]

/-- Script: the enumeration line reports two devices while the before-text
carries a single descriptor line; the single device is then flashed. -/
def c9script : List Ev :=
  [.init discText1, .found 2, .rockusb, .loader "Upgrade loader ok",
    .writeResp "", .progress "Write LBA from file (100%)", .init ""]

/-! # Theorems -/

/-! ## List scanning infrastructure -/

theorem dropLit_self_append (l r : List Char) : dropLit l (l ++ r) = some r := by
  induction l with
  | nil => rfl
  | cons a as ih => simp [dropLit, ih]

theorem dropLit_length {l cs r : List Char} (h : dropLit l cs = some r) :
    cs.length = l.length + r.length := by
  induction l generalizing cs with
  | nil => cases cs <;> simp [dropLit] at h <;> simp [h]
  | cons a as ih =>
    cases cs with
    | nil => simp [dropLit] at h
    | cons c cs =>
      simp only [dropLit] at h
      by_cases hc : c = a
      · rw [if_pos hc] at h
        have := ih h
        simp [this]
        omega
      · rw [if_neg hc] at h
        exact absurd h (by simp)

theorem takeWhile_append_run {p : Char → Bool} {xs rest : List Char}
    (h : ∀ c ∈ xs, p c = true) (h2 : headNotC p rest) :
    (xs ++ rest).takeWhile p = xs := by
  induction xs with
  | nil =>
    cases rest with
    | nil => rfl
    | cons c t => simp [List.takeWhile_cons, h2 c rfl]
  | cons x xs ih =>
    simp only [List.cons_append, List.takeWhile_cons, h x (by simp)]
    simp [ih (fun c hc => h c (by simp [hc]))]

theorem dropWhile_append_run {p : Char → Bool} {xs rest : List Char}
    (h : ∀ c ∈ xs, p c = true) (h2 : headNotC p rest) :
    (xs ++ rest).dropWhile p = rest := by
  induction xs with
  | nil =>
    cases rest with
    | nil => rfl
    | cons c t => simp [List.dropWhile_cons, h2 c rfl]
  | cons x xs ih =>
    simp only [List.cons_append, List.dropWhile_cons, h x (by simp)]
    simp [ih (fun c hc => h c (by simp [hc]))]

theorem dropWhile_head_not {p : Char → Bool} {l : List Char}
    (h : headNotC p l) : l.dropWhile p = l := by
  cases l with
  | nil => rfl
  | cons c t => simp [List.dropWhile_cons, h c rfl]

theorem dropWhile_len_le (p : Char → Bool) (l : List Char) :
    (l.dropWhile p).length ≤ l.length := by
  induction l with
  | nil => simp
  | cons a l ih =>
    by_cases h : p a
    · simp only [List.dropWhile_cons, if_pos h]
      exact Nat.le_trans ih (by simp)
    · simp [List.dropWhile_cons, if_neg h]

/-! ## Decimal rendering lemmas -/

theorem digitChar_toNat {d : Nat} (h : d < 10) :
    (Nat.digitChar d).toNat = 48 + d := by
  interval_cases d <;> decide

theorem isDigitC_digitChar {d : Nat} (h : d < 10) :
    isDigitC (Nat.digitChar d) = true := by
  interval_cases d <;> decide

theorem renderNat_ne_nil (n : Nat) : renderNat n ≠ [] := by
  unfold renderNat
  by_cases h : n = 0
  · simp [h]
  · simp only [if_neg h]
    simp [Nat.digits_ne_nil_iff_ne_zero.mpr h]

theorem renderNat_digits (n : Nat) : ∀ c ∈ renderNat n, isDigitC c = true := by
  unfold renderNat
  by_cases h : n = 0
  · simp [h]; decide
  · simp only [if_neg h]
    intro c hc
    simp only [List.mem_map, List.mem_reverse] at hc
    obtain ⟨d, hd, rfl⟩ := hc
    exact isDigitC_digitChar (Nat.digits_lt_base (by norm_num) hd)

theorem foldr_digits (L : List Nat) (h : ∀ d ∈ L, d < 10) :
    List.foldr (fun d a => 10 * a + ((Nat.digitChar d).toNat - 48)) 0 L =
      Nat.ofDigits 10 L := by
  induction L with
  | nil => simp [Nat.ofDigits_nil]
  | cons d L ih =>
    simp only [List.foldr_cons, Nat.ofDigits_cons]
    rw [ih (fun x hx => h x (by simp [hx]))]
    rw [digitChar_toNat (h d (by simp))]
    omega

theorem digitsVal_renderNat (n : Nat) : digitsVal (renderNat n) = n := by
  unfold renderNat
  by_cases h : n = 0
  · simp [h]; decide
  · simp only [if_neg h]
    unfold digitsVal
    rw [List.foldl_map, List.foldl_reverse]
    have hlt : ∀ d ∈ Nat.digits 10 n, d < 10 :=
      fun d hd => Nat.digits_lt_base (by norm_num) hd
    calc List.foldr (fun y x => 10 * x + ((Nat.digitChar y).toNat - 48)) 0
            (Nat.digits 10 n)
        = Nat.ofDigits 10 (Nat.digits 10 n) := foldr_digits _ hlt
      _ = n := Nat.ofDigits_digits 10 n

/-! ## Descriptor matcher: consumption bounds -/

theorem descLoc_len {dn : Nat} {v p cs : List Char} {d : RadxaDevice}
    {rest : List Char} (h : descLoc dn v p cs = some (d, rest)) :
    rest.length ≤ cs.length := by
  unfold descLoc at h
  split at h
  · exact absurd h (by simp)
  · rename_i cs7 hdrop
    split at h
    · exact absurd h (by simp)
    · injection h with h1
      injection h1 with h1 h2
      rw [← h2]
      have := dropLit_length hdrop
      have := dropWhile_len_le isDigitC cs7
      omega

theorem descPid_len {dn : Nat} {v cs : List Char} {d : RadxaDevice}
    {rest : List Char} (h : descPid dn v cs = some (d, rest)) :
    rest.length ≤ cs.length := by
  unfold descPid at h
  split at h
  · exact absurd h (by simp)
  · rename_i cs6 hdrop
    split at h
    · exact absurd h (by simp)
    · have h1 := descLoc_len h
      have := dropLit_length hdrop
      have := dropWhile_len_le isHexC cs6
      omega

theorem descVid_len {dn : Nat} {cs : List Char} {d : RadxaDevice}
    {rest : List Char} (h : descVid dn cs = some (d, rest)) :
    rest.length ≤ cs.length := by
  unfold descVid at h
  split at h
  · exact absurd h (by simp)
  · rename_i cs5 hdrop
    split at h
    · exact absurd h (by simp)
    · have h1 := descPid_len h
      have := dropLit_length hdrop
      have := dropWhile_len_le isHexC cs5
      omega

theorem descDigits_len {cs : List Char} {d : RadxaDevice} {rest : List Char}
    (h : descDigits cs = some (d, rest)) : rest.length ≤ cs.length := by
  unfold descDigits at h
  split at h
  · exact absurd h (by simp)
  · split at h
    · exact absurd h (by simp)
    · rename_i sep cs4 hdrop
      split at h
      · exact absurd h (by simp)
      · have h1 := descVid_len h
        have h2 : (sep :: cs4).length ≤ cs.length := by
          rw [← hdrop]; exact dropWhile_len_le isDigitC cs
        simp only [List.length_cons] at h2
        omega

theorem descAfter_len {cs : List Char} {d : RadxaDevice} {rest : List Char}
    (h : descAfter cs = some (d, rest)) : rest.length ≤ cs.length := by
  unfold descAfter at h
  split at h
  · rename_i c cs2 hdrop
    split at h
    · have h1 := descDigits_len h
      have h2 : (c :: cs2).length ≤ cs.length := by
        rw [← hdrop]; exact dropWhile_len_le isSpaceC cs
      simp only [List.length_cons] at h2
      have := dropWhile_len_le isSpaceC cs2
      omega
    · exact absurd h (by simp)
  · exact absurd h (by simp)

theorem matchDescAt_lt {cs : List Char} {d : RadxaDevice} {rest : List Char}
    (h : matchDescAt cs = some (d, rest)) : rest.length < cs.length := by
  unfold matchDescAt at h
  split at h
  · exact absurd h (by simp)
  · rename_i cs1 hdrop
    have h1 := descAfter_len h
    have h2 := dropLit_length hdrop
    have h3 : litDevNo.length = 5 := by decide
    omega

theorem matchDescAt_nil : matchDescAt [] = none := rfl

theorem matchDescAt_none_head {c : Char} {cs : List Char} (h : c ≠ 'D') :
    matchDescAt (c :: cs) = none := by
  have hlit : litDevNo = 'D' :: ['e', 'v', 'N', 'o'] := rfl
  unfold matchDescAt
  rw [hlit]
  simp [dropLit, h]

/-! ## Descriptor matcher: behavior on a rendered descriptor -/

theorem isSpaceC_of_digit {c : Char} (h : isDigitC c = true) :
    isSpaceC c = false := by
  simp only [isDigitC, Bool.and_eq_true, decide_eq_true_eq] at h
  simp only [isSpaceC, Bool.or_eq_false_iff, decide_eq_false_iff_not]
  omega

theorem headNotC_space_of_digits {ds rest : List Char} (hne : ds ≠ [])
    (hd : ∀ c ∈ ds, isDigitC c = true) :
    headNotC isSpaceC (ds ++ rest) := by
  cases ds with
  | nil => exact absurd rfl hne
  | cons a t =>
    intro c hc
    simp only [List.cons_append, List.head?_cons, Option.some.injEq] at hc
    rw [← hc]
    exact isSpaceC_of_digit (hd a (by simp))

theorem descLoc_render (dn : Nat) (v p ls rest : List Char) (hls : ls ≠ [])
    (hd : ∀ c ∈ ls, isDigitC c = true) (hrest : headNotC isDigitC rest) :
    descLoc dn v p (litLoc ++ (ls ++ rest)) =
      some (⟨dn, ⟨v⟩, ⟨p⟩, digitsVal ls⟩, rest) := by
  unfold descLoc
  rw [dropLit_self_append]
  dsimp only
  rw [takeWhile_append_run hd hrest, dropWhile_append_run hd hrest]
  cases ls with
  | nil => exact absurd rfl hls
  | cons a t => rfl

theorem descPid_render (dn : Nat) (v p rest : List Char) (hp : p ≠ [])
    (hph : ∀ c ∈ p, isHexC c = true) (hrest : headNotC isHexC rest) :
    descPid dn v (litPid ++ (p ++ rest)) = descLoc dn v p rest := by
  unfold descPid
  rw [dropLit_self_append]
  dsimp only
  rw [takeWhile_append_run hph hrest, dropWhile_append_run hph hrest]
  cases p with
  | nil => exact absurd rfl hp
  | cons a t => rfl

theorem descVid_render (dn : Nat) (v rest : List Char) (hv : v ≠ [])
    (hvh : ∀ c ∈ v, isHexC c = true) (hrest : headNotC isHexC rest) :
    descVid dn (litVid ++ (v ++ rest)) = descPid dn v rest := by
  unfold descVid
  rw [dropLit_self_append]
  dsimp only
  rw [takeWhile_append_run hvh hrest, dropWhile_append_run hvh hrest]
  cases v with
  | nil => exact absurd rfl hv
  | cons a t => rfl

theorem descDigits_render (ds : List Char) (sep : Char) (rest : List Char)
    (hds : ds ≠ []) (hd : ∀ c ∈ ds, isDigitC c = true)
    (hsep : isDigitC sep = false) :
    descDigits (ds ++ (sep :: rest)) = descVid (digitsVal ds) rest := by
  have hh : headNotC isDigitC (sep :: rest) := by
    intro c hc
    simp only [List.head?_cons, Option.some.injEq] at hc
    rw [← hc]; exact hsep
  unfold descDigits
  rw [takeWhile_append_run hd hh, dropWhile_append_run hd hh]
  cases ds with
  | nil => exact absurd rfl hds
  | cons a t => simp [hsep]

theorem descAfter_render (rest : List Char) (hrest : headNotC isSpaceC rest) :
    descAfter ('=' :: rest) = descDigits rest := by
  unfold descAfter
  rw [List.dropWhile_cons, if_neg (by decide)]
  dsimp only
  rw [if_pos rfl, dropWhile_head_not hrest]

theorem headNotC_comma_not_hex (lit X : List Char) (hlit : lit.head? = some ',') :
    headNotC isHexC (lit ++ X) := by
  intro c hc
  cases lit with
  | nil => simp at hlit
  | cons a t =>
    simp only [List.head?_cons, Option.some.injEq] at hlit
    simp only [List.cons_append, List.head?_cons, Option.some.injEq] at hc
    rw [← hc, hlit]
    decide

theorem matchDescAt_render (d : RadxaDevice) (rest : List Char)
    (hd : goodDev d) (hrest : headNotC isDigitC rest) :
    matchDescAt (renderDev d ++ rest) = some (d, rest) := by
  obtain ⟨hv1, hv2, hp1, hp2⟩ := hd
  have hshape : renderDev d ++ rest =
      litDevNo ++ ('=' :: (renderNat d.devno ++ (',' :: (litVid ++
        (d.vid.data ++ (litPid ++ (d.pid.data ++ (litLoc ++
          (renderNat d.location_id ++ rest))))))))) := by
    simp [renderDev, List.append_assoc]
  rw [hshape]
  unfold matchDescAt
  rw [dropLit_self_append]
  dsimp only
  rw [descAfter_render _ (headNotC_space_of_digits (renderNat_ne_nil _)
    (renderNat_digits _))]
  rw [descDigits_render _ ',' _ (renderNat_ne_nil _) (renderNat_digits _)
    (by decide)]
  rw [descVid_render _ _ _ hv1 hv2 (headNotC_comma_not_hex litPid _ rfl)]
  rw [descPid_render _ _ _ _ hp1 hp2 (headNotC_comma_not_hex litLoc _ rfl)]
  rw [descLoc_render _ _ _ _ _ (renderNat_ne_nil _) (renderNat_digits _) hrest]
  rw [digitsVal_renderNat, digitsVal_renderNat]

/-! ## The findall scan -/

theorem findallF_nil (f : Nat) : findallF f [] = [] := by
  cases f <;> rfl

theorem findallF_fuel {cs : List Char} {f1 f2 : Nat} (h1 : cs.length ≤ f1)
    (h2 : cs.length ≤ f2) : findallF f1 cs = findallF f2 cs := by
  induction f1 generalizing cs f2 with
  | zero =>
    have : cs = [] := List.eq_nil_of_length_eq_zero (by omega)
    rw [this, findallF_nil, findallF_nil]
  | succ m ih =>
    cases cs with
    | nil => rw [findallF_nil, findallF_nil]
    | cons c cs' =>
      cases f2 with
      | zero => simp at h2
      | succ g =>
        simp only [List.length_cons] at h1 h2
        cases hm : matchDescAt (c :: cs') with
        | some p =>
          obtain ⟨d, rest⟩ := p
          have hlt := matchDescAt_lt hm
          simp only [List.length_cons] at hlt
          simp only [findallF, hm]
          rw [@ih rest g (by omega) (by omega)]
        | none =>
          simp only [findallF, hm]
          exact ih (by omega) (by omega)

theorem parseDevicesL_skip {c : Char} {cs : List Char} (h : c ≠ 'D') :
    parseDevicesL (c :: cs) = parseDevicesL cs := by
  simp only [parseDevicesL, List.length_cons, findallF,
    matchDescAt_none_head h]

theorem parseDevicesL_match {cs : List Char} {d : RadxaDevice}
    {rest : List Char} (h : matchDescAt cs = some (d, rest)) :
    parseDevicesL cs = d :: parseDevicesL rest := by
  cases cs with
  | nil => rw [matchDescAt_nil] at h; exact absurd h (by simp)
  | cons c cs' =>
    have hlt := matchDescAt_lt h
    simp only [List.length_cons] at hlt
    simp only [parseDevicesL, List.length_cons, findallF, h]
    rw [findallF_fuel (by omega) (le_refl rest.length)]

theorem parseDevicesL_skipAll {pre rest : List Char}
    (h : ∀ c ∈ pre, c ≠ 'D') :
    parseDevicesL (pre ++ rest) = parseDevicesL rest := by
  induction pre with
  | nil => rfl
  | cons c t ih =>
    rw [List.cons_append, parseDevicesL_skip (h c (by simp))]
    exact ih (fun x hx => h x (by simp [hx]))

/-! ## Progress marker lemmas -/

theorem matchProgAt_marker (n : Nat) :
    matchProgAt (litWL ++ (renderNat n ++ ['%', ')'])) = some n := by
  have hh : headNotC isDigitC ['%', ')'] := by
    intro c hc
    simp only [List.head?_cons, Option.some.injEq] at hc
    rw [← hc]; decide
  have hlit : "Write LBA from file (".data = litWL := rfl
  unfold matchProgAt
  rw [hlit, dropLit_self_append]
  dsimp only
  rw [takeWhile_append_run (renderNat_digits n) hh,
    dropWhile_append_run (renderNat_digits n) hh]
  have hdrop : dropLit "%)".data ['%', ')'] = some [] := rfl
  cases hren : renderNat n with
  | nil => exact absurd hren (renderNat_ne_nil n)
  | cons a t =>
    rw [hdrop]
    dsimp only
    rw [← hren, digitsVal_renderNat]

theorem parseProgress_head {c : Char} {cs : List Char} {n : Nat}
    (h : matchProgAt (c :: cs) = some n) : parseProgress (c :: cs) = some n := by
  simp [parseProgress, h]

/-! ## Device parser on block-structured discovery text -/

theorem renderDev_cons (d : RadxaDevice) :
    ∃ t, renderDev d = 'D' :: t := ⟨_, rfl⟩

theorem headNotC_newline_digit (X : List Char) :
    headNotC isDigitC ('\n' :: X) := by
  intro c hc
  simp only [List.head?_cons, Option.some.injEq] at hc
  rw [← hc]; decide

/-- C5 (amended): for discovery text made of well-formed descriptor lines
interleaved with noise lines whose characters cannot open a descriptor
match, the device parser returns exactly the descriptor-line devices, in
order, with DevNo and LocationID parsed as integers and the Vid and Pid
hex strings preserved exactly as given (either case); zero descriptor
lines yield the empty sequence, not an error.  The restriction on the
noise lines is forced by the counterexample: the separator after the DevNo
field in the source pattern is \D, any single non-digit character
including a newline, so unrestricted noise lines can combine across a line
break into a descriptor match. -/
theorem c5_amended (bs : List Block)
    (hdev : ∀ d, Block.dev d ∈ bs → goodDev d)
    (hnoise : ∀ l, Block.noise l ∈ bs → goodNoise l) :
    parseDevicesL (renderBlocks bs) = blockDevs bs := by
  induction bs with
  | nil => rfl
  | cons b bs ih =>
    have ihx := ih (fun d hd => hdev d (List.mem_cons_of_mem _ hd))
      (fun l hl => hnoise l (List.mem_cons_of_mem _ hl))
    cases b with
    | dev d =>
      have hm : matchDescAt (renderDev d ++ ('\n' :: renderBlocks bs)) =
          some (d, '\n' :: renderBlocks bs) :=
        matchDescAt_render d _ (hdev d (by simp)) (headNotC_newline_digit _)
      have hstep : renderBlocks (Block.dev d :: bs) =
          renderDev d ++ ('\n' :: renderBlocks bs) := rfl
      rw [hstep, parseDevicesL_match hm,
        parseDevicesL_skip (by decide : ('\n' : Char) ≠ 'D'), ihx]
      simp [blockDevs]
    | noise l =>
      have hstep : renderBlocks (Block.noise l :: bs) =
          l ++ ('\n' :: renderBlocks bs) := rfl
      rw [hstep, parseDevicesL_skipAll (hnoise l (by simp)),
        parseDevicesL_skip (by decide : ('\n' : Char) ≠ 'D'), ihx]
      simp [blockDevs]

/-! ## Session controller: state extension and command vocabulary -/

theorem StExt_refl (s : St) : StExt s s :=
  ⟨rfl, rfl, ⟨[], by simp⟩, ⟨[], by simp⟩⟩

theorem StExt_trans {a b c : St} (h1 : StExt a b) (h2 : StExt b c) :
    StExt a c := by
  obtain ⟨u1, i1, ⟨t1, hs1⟩, ⟨l1, hl1⟩⟩ := h1
  obtain ⟨u2, i2, ⟨t2, hs2⟩, ⟨l2, hl2⟩⟩ := h2
  exact ⟨by rw [u2, u1], by rw [i2, i1],
    ⟨t1 ++ t2, by rw [hs2, hs1, List.append_assoc]⟩,
    ⟨l1 ++ l2, by rw [hl2, hl1, List.append_assoc]⟩⟩

theorem StExt_sendline (s : St) (c : String) : StExt s (sendline s c) :=
  ⟨rfl, rfl, ⟨[c], rfl⟩, ⟨[], by simp [sendline]⟩⟩

theorem StExt_logM (s : St) (m : LogMsg) : StExt s (logM s m) :=
  ⟨rfl, rfl, ⟨[], by simp [logM]⟩, ⟨[m], rfl⟩⟩

theorem Steps_refl (s : St) : Steps s s :=
  ⟨StExt_refl s, fun _ hc => Or.inl hc⟩

theorem Steps_trans {a b c : St} (h1 : Steps a b) (h2 : Steps b c) :
    Steps a c := by
  refine ⟨StExt_trans h1.1 h2.1, fun x hx => ?_⟩
  rcases h2.2 x hx with h | h
  · exact h1.2 x h
  · right
    rwa [h1.1.1, h1.1.2.1] at h

theorem Steps_sendline {s : St} {c : String}
    (h : Vocab s.ul_file s.im_file c) : Steps s (sendline s c) := by
  refine ⟨StExt_sendline s c, fun x hx => ?_⟩
  simp only [sendline, List.mem_append, List.mem_singleton] at hx
  rcases hx with hx | hx
  · exact Or.inl hx
  · right; rw [hx]; exact h

theorem Steps_logM (s : St) (m : LogMsg) : Steps s (logM s m) :=
  ⟨StExt_logM s m, fun _ hc => Or.inl hc⟩

theorem Steps_after_complete (s : St) (evs : List Ev) :
    Steps s ((after_complete s evs).2.1) := by
  unfold after_complete
  cases h : expect_initial_prompt evs with
  | none => exact Steps_sendline (Or.inr (Or.inr (Or.inr (Or.inr rfl))))
  | some p => exact Steps_sendline (Or.inr (Or.inr (Or.inr (Or.inr rfl))))

theorem Steps_writing_lba_go (evs : List Ev) : ∀ (s : St) (last : Int),
    Steps s ((writing_lba_go s last evs).2.1) := by
  induction evs with
  | nil => intro s last; exact Steps_refl s
  | cons ev evs ih =>
    intro s last
    cases ev with
    | progress t =>
      cases hp : parseProgress t.data with
      | none => simp only [writing_lba_go, hp]; exact Steps_refl s
      | some p =>
        by_cases hne : (p : Int) ≠ last
        · by_cases h100 : p = 100
          · simp only [writing_lba_go, hp, if_pos hne, if_pos h100]
            exact Steps_trans (Steps_logM _ _)
              (Steps_trans (Steps_logM _ _) (Steps_after_complete _ _))
          · simp only [writing_lba_go, hp, if_pos hne, if_neg h100]
            exact Steps_trans (Steps_logM _ _) (ih _ _)
        · by_cases h100 : p = 100
          · simp only [writing_lba_go, hp, if_neg hne, if_pos h100]
            exact Steps_trans (Steps_logM _ _) (Steps_after_complete _ _)
          · simp only [writing_lba_go, hp, if_neg hne, if_neg h100]
            exact ih _ _
    | wlEof => exact Steps_refl s
    | init b => exact Steps_refl s
    | initEof b => exact Steps_refl s
    | found n => exact Steps_refl s
    | rockusb => exact Steps_refl s
    | loader b => exact Steps_refl s
    | writeResp b => exact Steps_refl s
    | eofExn => exact Steps_refl s

theorem Steps_write_lba (s : St) (loc : Nat) (evs : List Ev) :
    Steps s ((write_lba s loc evs).2.1) := by
  unfold write_lba
  split
  · split
    · exact Steps_trans (Steps_logM _ _) (Steps_logM _ _)
    · exact Steps_trans (Steps_logM _ _) (Steps_writing_lba_go _ _ _)
  · exact Steps_refl _
  · exact Steps_refl _

theorem Steps_upgrade_loader (s : St) (loc : Nat) (evs : List Ev) :
    Steps s ((upgrade_loader s loc evs).2.1) := by
  unfold upgrade_loader
  split
  · split
    · exact Steps_logM _ _
    · split
      · exact Steps_trans (Steps_logM _ _) (Steps_logM _ _)
      · exact Steps_logM _ _
  · exact Steps_refl _
  · exact Steps_refl _

theorem Steps_send_upgrade_commands (s : St) (loc : Nat) (evs : List Ev) :
    Steps s ((send_upgrade_commands s loc evs).2.1) := by
  unfold send_upgrade_commands
  have h1 : Steps s (sendline s ("ul " ++ s.ul_file ++ " -noreset")) :=
    Steps_sendline (Or.inr (Or.inr (Or.inl rfl)))
  dsimp only
  split
  · rename_i s2 evs2 heq
    have h2 : Steps (sendline s ("ul " ++ s.ul_file ++ " -noreset")) s2 := by
      have h3 := Steps_upgrade_loader
        (sendline s ("ul " ++ s.ul_file ++ " -noreset")) loc evs
      rwa [heq] at h3
    have h4 : Steps s2 (sendline s2 ("wl 0 " ++ s2.im_file)) :=
      Steps_sendline (Or.inr (Or.inr (Or.inr (Or.inl rfl))))
    exact Steps_trans h1 (Steps_trans h2
      (Steps_trans h4 (Steps_write_lba _ _ _)))
  · exact Steps_trans h1 (Steps_upgrade_loader _ loc evs)

theorem Steps_run_upgrade (s : St) (d : RadxaDevice) (evs : List Ev) :
    Steps s ((run_upgrade s d evs).2.1) := by
  unfold run_upgrade
  have h1 : Steps s (sendline s (Nat.repr d.devno)) :=
    Steps_sendline (Or.inr (Or.inl ⟨d.devno, rfl⟩))
  split
  · exact Steps_trans h1 (Steps_send_upgrade_commands _ _ _)
  · exact h1
  · exact h1

theorem Steps_initial_prompt (s : St) (evs : List Ev) :
    Steps s ((initial_prompt s evs).2.1) := by
  unfold initial_prompt
  split
  · exact Steps_refl _
  · split
    · exact Steps_logM _ _
    · split
      · have h1 : Steps s (sendline s "r") := Steps_sendline (Or.inl rfl)
        split
        · exact Steps_trans h1
            ⟨⟨rfl, rfl, ⟨[], by simp⟩, ⟨[], by simp⟩⟩, fun _ hc => Or.inl hc⟩
        · exact h1
        · exact h1
      · exact Steps_refl _

theorem Steps_run_loop (ds : List RadxaDevice) : ∀ (s : St) (evs : List Ev),
    Steps s ((run_loop s ds evs).2.1) := by
  induction ds with
  | nil => intro s evs; exact Steps_refl s
  | cons d ds ih =>
    intro s evs
    unfold run_loop
    split
    · rename_i s2 evs2 heq
      have h1 : Steps s s2 := by
        have h2 := Steps_run_upgrade s d evs
        rwa [heq] at h2
      exact Steps_trans h1 (ih s2 evs2)
    · exact Steps_run_upgrade s d evs

theorem Steps_run (s : St) (evs : List Ev) : Steps s ((run s evs).2.1) := by
  unfold run
  have h0 : Steps s { s with child := some s.command } :=
    ⟨⟨rfl, rfl, ⟨[], by simp⟩, ⟨[], by simp⟩⟩, fun _ hc => Or.inl hc⟩
  dsimp only
  split
  · rename_i s2 evs2 heq
    have h1 : Steps s s2 := by
      have h2 := Steps_initial_prompt { s with child := some s.command } evs
      rw [heq] at h2
      exact Steps_trans h0 h2
    split
    · exact Steps_trans h1 (Steps_trans (Steps_logM _ _) (Steps_logM _ _))
    · split
      · rename_i s3 evs3 heq2
        have h3 : Steps s2 s3 := by
          have h4 := Steps_run_loop s2.devices s2 evs2
          rwa [heq2] at h4
        exact Steps_trans h1 (Steps_trans h3 (Steps_logM _ _))
      · exact Steps_trans h1 (Steps_run_loop s2.devices s2 evs2)
  · rename_i s2 evs2 heq
    have h2 := Steps_initial_prompt { s with child := some s.command } evs
    rw [heq] at h2
    exact Steps_trans h0 (Steps_trans h2 (Steps_logM _ _))
  · exact Steps_trans h0 (Steps_initial_prompt _ evs)

/-! ## Progress emission: no consecutive duplicates -/

theorem emittedPs_append (a b : List LogMsg) :
    emittedPs (a ++ b) = emittedPs a ++ emittedPs b := by
  simp [emittedPs]

theorem after_complete_log (s : St) (evs : List Ev) :
    ((after_complete s evs).2.1).log = s.log := by
  unfold after_complete
  cases h : expect_initial_prompt evs with
  | none => rfl
  | some p => rfl

theorem triv_chain (s : St) (last : Int) (r : St) (hr : r.log = s.log) :
    ∃ u, r.log = s.log ++ u ∧
      List.Chain' (fun a b => a ≠ b) (emittedPs u) ∧
      ∀ h, (emittedPs u).head? = some h → (h : Int) ≠ last :=
  ⟨[], by simp [hr], by simp [emittedPs], by simp [emittedPs]⟩

theorem wl_go_chain (evs : List Ev) : ∀ (s : St) (last : Int),
    ∃ u, ((writing_lba_go s last evs).2.1).log = s.log ++ u ∧
      List.Chain' (fun a b => a ≠ b) (emittedPs u) ∧
      ∀ h, (emittedPs u).head? = some h → (h : Int) ≠ last := by
  induction evs with
  | nil =>
    intro s last
    exact triv_chain s last _ rfl
  | cons ev evs ih =>
    intro s last
    cases ev with
    | progress t =>
      cases hp : parseProgress t.data with
      | none =>
        simp only [writing_lba_go, hp]
        exact triv_chain s last _ rfl
      | some p =>
        by_cases hne : (p : Int) ≠ last
        · by_cases h100 : p = 100
          · simp only [writing_lba_go, hp, if_pos hne, if_pos h100]
            refine ⟨[.progressOut p, .writeCompleted], ?_, ?_, ?_⟩
            · rw [after_complete_log]
              simp [logM]
            · simp [emittedPs]
            · intro h hh
              simp only [emittedPs, List.filterMap_cons, List.filterMap_nil,
                List.head?_cons, Option.some.injEq] at hh
              rw [← hh]
              exact hne
          · simp only [writing_lba_go, hp, if_pos hne, if_neg h100]
            obtain ⟨u, hu, hchain, hhead⟩ := ih (logM s (.progressOut p)) (p : Int)
            refine ⟨.progressOut p :: u, ?_, ?_, ?_⟩
            · rw [hu]; simp [logM]
            · simp only [emittedPs, List.filterMap_cons]
              rw [List.chain'_cons']
              refine ⟨?_, hchain⟩
              intro y hy
              intro hcon
              exact hhead y hy (by rw [hcon])
            · intro h hh
              simp only [emittedPs, List.filterMap_cons, List.head?_cons,
                Option.some.injEq] at hh
              rw [← hh]
              exact hne
        · by_cases h100 : p = 100
          · simp only [writing_lba_go, hp, if_neg hne, if_pos h100]
            refine ⟨[.writeCompleted], ?_, ?_, ?_⟩
            · rw [after_complete_log]
              simp [logM]
            · simp [emittedPs]
            · simp [emittedPs]
          · simp only [writing_lba_go, hp, if_neg hne, if_neg h100]
            exact ih s last
    | wlEof => exact triv_chain s last _ rfl
    | init b => exact triv_chain s last _ rfl
    | initEof b => exact triv_chain s last _ rfl
    | found n => exact triv_chain s last _ rfl
    | rockusb => exact triv_chain s last _ rfl
    | loader b => exact triv_chain s last _ rfl
    | writeResp b => exact triv_chain s last _ rfl
    | eofExn => exact triv_chain s last _ rfl

/-! ## Loader classification always returns normally -/

theorem upgrade_loader_loader (s : St) (loc : Nat) (b : String)
    (evs : List Ev) :
    ∃ s1, upgrade_loader s loc (Ev.loader b :: evs) = (.ok, s1, evs) ∧
      s1.sent = s.sent ∧ s1.im_file = s.im_file := by
  by_cases h1 : strContains b "Upgrade loader ok" = true
  · exact ⟨logM s (.loaderOk loc), by simp [upgrade_loader, h1], by simp [logM],
      by simp [logM]⟩
  · by_cases h2 : strContains b "Download Boot Fail" = true
    · exact ⟨logM (logM s (.loaderFail loc)) .maskromHint,
        by simp [upgrade_loader, h1, h2], by simp [logM], by simp [logM]⟩
    · exact ⟨logM s (.unknowError loc),
        by simp [upgrade_loader, h1, h2], by simp [logM], by simp [logM]⟩

/-! # Claim theorems -/

/-- C1 (counterexample): with one discovered device whose loader upload is
answered by the failure marker Download Boot Fail, the controller logs the
failure and the remediation hint but still sends the image-write command
wl 0 I for that same device, contradicting the claim that the device is
abandoned before the image-write command. -/
theorem c1_counterexample :
    ((run (initSt "L" "I" "C") c1script).2.1).sent =
      ["r", "1", "ul L -noreset", "wl 0 I", "cd"] ∧
    LogMsg.loaderFail 3 ∈ ((run (initSt "L" "I" "C") c1script).2.1).log ∧
    (run (initSt "L" "I" "C") c1script).1 = Outcome.ok := by decide

/-- C1 (amended): whatever text the loader-upload wait returns (failure
marker, unknown response, or the text accumulated up to a timeout), the
classification in upgrade_loader returns normally and send_upgrade_commands
goes on to send the image-write command wl 0 with the image path for the
same device; the device is not abandoned.  Only a raised end-of-stream
exception prevents the image-write command. -/
theorem c1_amended (s : St) (loc : Nat) (b : String) (evs : List Ev) :
    ("wl 0 " ++ s.im_file) ∈
      ((send_upgrade_commands s loc (Ev.loader b :: evs)).2.1).sent := by
  unfold send_upgrade_commands
  dsimp only
  obtain ⟨s1, heq, hsent, him⟩ := upgrade_loader_loader
    (sendline s ("ul " ++ s.ul_file ++ " -noreset")) loc b evs
  rw [heq]
  dsimp only
  obtain ⟨-, -, ⟨t, hts⟩, -⟩ :=
    (Steps_write_lba (sendline s1 ("wl 0 " ++ s1.im_file)) loc evs).1
  rw [hts]
  apply List.mem_append_left
  simp only [sendline, List.mem_append, List.mem_singleton]
  right
  rw [him]
  rfl

/-- C2 (code evaluation at the failing input): two devices are discovered;
during the first write the stream produces a 40 percent progress line and
then ends.  The controller neither reports a session error nor terminates:
the progress loop keeps re-matching the end-of-stream result forever (the
diverged outcome), no error message is logged, the command cd is never
sent, and the second device is never selected. -/
theorem c2_eof_mid_write :
    (run (initSt "L" "I" "C") c2script).1 = Outcome.diverged ∧
    ((run (initSt "L" "I" "C") c2script).2.1).sent =
      ["r", "1", "ul L -noreset", "wl 0 I"] ∧
    ((run (initSt "L" "I" "C") c2script).2.1).log =
      [LogMsg.loaderOk 3, LogMsg.writingLba 3, LogMsg.progressOut 40] := by
  decide

/-- C3 (counterexample): the marker Write LBA from file (150%) is accepted
by the progress pattern and parsed to 150, although 150 is outside the
0 to 100 range the claim says is rejected. -/
theorem c3_counterexample :
    parseProgress "Write LBA from file (150%)".data = some 150 ∧
      100 < 150 := by decide

/-- C3 (amended): the progress parser returns the integer NN for every
well-formed marker Write LBA from file (NN%) with NN any nonnegative
integer, with no upper bound at 100; markers whose parenthesis carries no
digits, and lines without the marker, yield absence. -/
theorem c3_amended :
    (∀ n : Nat, parseProgress (progressMarker n) = some n) ∧
    parseProgress "Write LBA from file (abc%)".data = none ∧
    parseProgress "a line with no progress marker".data = none := by
  refine ⟨?_, by decide, by decide⟩
  intro n
  have h := matchProgAt_marker n
  have hsh : litWL ++ (renderNat n ++ ['%', ')']) =
      'W' :: ("rite LBA from file (".data ++ (renderNat n ++ ['%', ')'])) :=
    rfl
  unfold progressMarker
  rw [hsh] at h ⊢
  exact parseProgress_head h

/-- C4: over any script of transcript events for one device image write,
the progress percentages emitted to the reporter by the write stage contain
no two consecutive equal values, even when the stream repeats a
percentage. -/
theorem c4_no_duplicate_progress (s : St) (location : Nat) (evs : List Ev) :
    List.Chain' (fun a b => a ≠ b)
      (emittedPs (((write_lba s location evs).2.1).log.drop s.log.length)) := by
  unfold write_lba
  split
  · rename_i b evs2
    split
    · have hlog : ((logM (logM s (.writeLbaFailed location)) .maskromHint)).log
          = s.log ++ [LogMsg.writeLbaFailed location, LogMsg.maskromHint] := by
        simp [logM]
      rw [hlog, List.drop_left]
      simp [emittedPs]
    · obtain ⟨u, hu, hchain, -⟩ :=
        wl_go_chain evs2 (logM s (.writingLba location)) (-1)
      have hlog : (logM s (.writingLba location)).log =
          s.log ++ [LogMsg.writingLba location] := by simp [logM]
      unfold writing_lba
      rw [hu, hlog, List.append_assoc, List.drop_left]
      simp only [List.singleton_append, emittedPs, List.filterMap_cons]
      exact hchain
  · rw [List.drop_length]; decide
  · rw [List.drop_length]; decide

/-- C5 (counterexample): the two lines DevNo=7 and
Vid=0xAA,Pid=0xBB,LocationID=5 are both rejected by the well-formed
descriptor-line format of the claim, yet the parser returns one device from
them: the \D separator of the source pattern matches the newline between
the lines, so the descriptor match spans the line break.  A text with zero
well-formed descriptor lines thus yields a nonempty device sequence,
contradicting the claim. -/
theorem c5_counterexample :
    specDescLine "DevNo=7".data = false ∧
    specDescLine "Vid=0xAA,Pid=0xBB,LocationID=5".data = false ∧
    parseDevicesL ("DevNo=7".data ++ '\n' :: "Vid=0xAA,Pid=0xBB,LocationID=5".data) =
      [⟨7, "AA", "BB", 5⟩] := by decide

/-- C5 (witness): the amended theorem applied to a concrete interleaving of
noise lines and two descriptor lines with mixed-case hex fields. -/
theorem c5_amended_witness :
    (∀ d, Block.dev d ∈ [Block.noise "** banner **".data,
        Block.dev ⟨0, "aF", "0B", 3⟩, Block.noise "".data,
        Block.dev ⟨1, "AA", "bb", 42⟩] → goodDev d) ∧
    (∀ l, Block.noise l ∈ [Block.noise "** banner **".data,
        Block.dev ⟨0, "aF", "0B", 3⟩, Block.noise "".data,
        Block.dev ⟨1, "AA", "bb", 42⟩] → goodNoise l) ∧
    parseDevicesL (renderBlocks [Block.noise "** banner **".data,
        Block.dev ⟨0, "aF", "0B", 3⟩, Block.noise "".data,
        Block.dev ⟨1, "AA", "bb", 42⟩]) =
      blockDevs [Block.noise "** banner **".data,
        Block.dev ⟨0, "aF", "0B", 3⟩, Block.noise "".data,
        Block.dev ⟨1, "AA", "bb", 42⟩] := by
  refine ⟨?_, ?_, ?_⟩
  · intro d hd
    simp only [List.mem_cons, List.not_mem_nil, or_false] at hd
    rcases hd with h | h | h | h <;> cases h <;> (unfold goodDev; decide)
  · intro l hl
    simp only [List.mem_cons, List.not_mem_nil, or_false] at hl
    rcases hl with h | h | h | h <;> cases h <;> (unfold goodNoise; decide)
  · exact c5_amended _
      (by intro d hd
          simp only [List.mem_cons, List.not_mem_nil, or_false] at hd
          rcases hd with h | h | h | h <;> cases h <;> (unfold goodDev; decide))
      (by intro l hl
          simp only [List.mem_cons, List.not_mem_nil, or_false] at hl
          rcases hl with h | h | h | h <;> cases h <;>
            (unfold goodNoise; decide))

/-- C6: if the spawned process closes its output at the discovery wait with
nothing read (end of stream returned by the first expect with empty
before-text), the controller reports that no Radxa devices were found plus
the remediation hint, ends the session normally, and sends no command at
all: no rescan, no selection, no loader upload, no image write. -/
theorem c6_immediate_eof (ul im cmd : String) (evs : List Ev) :
    (run (initSt ul im cmd) (Ev.initEof "" :: evs)).1 = Outcome.ok ∧
    ((run (initSt ul im cmd) (Ev.initEof "" :: evs)).2.1).sent = [] ∧
    ((run (initSt ul im cmd) (Ev.initEof "" :: evs)).2.1).log =
      [LogMsg.noDevices, LogMsg.maskromHint] :=
  ⟨rfl, rfl, rfl⟩

/-- C7: every command line the controller ever sends to the external
process (each is terminated by sendline) belongs to the fixed vocabulary:
r, the decimal digits of a device index, ul loader-path -noreset,
wl 0 image-path, and cd. -/
theorem c7_command_vocabulary (ul im cmd : String) (evs : List Ev) :
    ∀ c ∈ ((run (initSt ul im cmd) evs).2.1).sent, Vocab ul im c := by
  intro c hc
  rcases (Steps_run (initSt ul im cmd) evs).2 c hc with h | h
  · exact absurd h (by simp [initSt])
  · exact h

/-- C7 (witness): on a concrete script the rescan command r is among the
sent commands and is covered by the vocabulary. -/
theorem c7_command_vocabulary_witness :
    "r" ∈ ((run (initSt "L" "I" "C") c7script).2.1).sent ∧
      Vocab "L" "I" "r" :=
  ⟨by decide, c7_command_vocabulary "L" "I" "C" c7script "r" (by decide)⟩

/-- C8 (counterexample): a session that completes a full successful write
and a session that dies with an end-of-stream exception at the Rockusb
prompt (the session-fatal condition, reported by the error log entry) both
finish with process exit status 0: the exit status does not distinguish the
two endings. -/
theorem c8_counterexample :
    mainExit (fun _ => true) "L" "I" c8okScript = some 0 ∧
    mainExit (fun _ => true) "L" "I" c8eofScript = some 0 ∧
    LogMsg.writeCompleted ∈
      ((run (initSt "L" "I" "sudo ./upgrade_tool") c8okScript).2.1).log ∧
    LogMsg.errorUpgradeProcess ∈
      ((run (initSt "L" "I" "sudo ./upgrade_tool") c8eofScript).2.1).log := by
  decide

/-- C8 (amended): whenever construction succeeds (both paths exist), the
process exit status is 0 for every session that terminates, whether the
session ended normally or on the caught end-of-stream error; fatal endings
are visible only in the error log, never in the exit status.  Exit status
1 occurs only for a missing input path at construction. -/
theorem c8_amended (fs : String → Bool) (ul im : String) (evs : List Ev)
    (hu : fs ul = true) (hi : fs im = true) :
    mainExit fs ul im evs = some 0 ∨ mainExit fs ul im evs = none := by
  unfold mainExit mkUpgradeTool
  rw [hu, hi]
  simp only [if_true]
  cases (run (initSt ul im "sudo ./upgrade_tool") evs).1 <;> simp

/-- C8 (witness): the amended theorem applied to the all-paths-exist
filesystem and the successful single-device script. -/
theorem c8_amended_witness :
    ((fun _ => true) "L" : Bool) = true ∧ ((fun _ => true) "I" : Bool) = true ∧
    (mainExit (fun _ => true) "L" "I" c8okScript = some 0 ∨
      mainExit (fun _ => true) "L" "I" c8okScript = none) :=
  ⟨rfl, rfl, c8_amended (fun _ => true) "L" "I" c8okScript rfl rfl⟩

/-- C9 (counterexample): with an enumeration line reporting two devices but
only one parsed descriptor, the session stores the reported count 2,
parses one device, runs the per-device loop over that one parsed device,
and its complete output log contains no mismatch message of any kind: the
mismatch is neither detected nor logged. -/
theorem c9_counterexample :
    ((run (initSt "L" "I" "C") c9script).2.1).numDevices = 2 ∧
    ((run (initSt "L" "I" "C") c9script).2.1).devices =
      [⟨1, "AA", "BB", 3⟩] ∧
    ((run (initSt "L" "I" "C") c9script).2.1).log =
      [LogMsg.loaderOk 3, LogMsg.writingLba 3, LogMsg.progressOut 100,
        LogMsg.writeCompleted] ∧
    ((run (initSt "L" "I" "C") c9script).2.1).sent =
      ["r", "1", "ul L -noreset", "wl 0 I", "cd"] := by decide

/-- C9 (amended): when the discovery before-text is selectable, the
controller stores the reported count and the parsed devices side by side
and proceeds normally whatever the count says: the discovery phase appends
nothing to the log (no mismatch message exists in the program), and the
device sequence that drives the loop is exactly the parser output,
independent of the reported count. -/
theorem c9_amended (s : St) (b : String) (n : Nat) (evs : List Ev)
    (h1 : strContains b "No found rockusb" = false)
    (h2 : strContains b "Select input DevNo" = true) :
    initial_prompt s (Ev.init b :: Ev.found n :: evs) =
      (Outcome.ok,
        { s with numDevices := n
                 devices := parseDevices b
                 sent := s.sent ++ ["r"] }, evs) := by
  unfold initial_prompt expect_initial_prompt
  dsimp only
  rw [h1, h2]
  simp [sendline]

/-- C9 (witness): the amended theorem applied to the one-descriptor
discovery text with the mismatching reported count 2. -/
theorem c9_amended_witness :
    strContains discText1 "No found rockusb" = false ∧
    strContains discText1 "Select input DevNo" = true ∧
    initial_prompt (initSt "L" "I" "C") (Ev.init discText1 :: Ev.found 2 :: []) =
      (Outcome.ok,
        { initSt "L" "I" "C" with
            numDevices := 2
            devices := parseDevices discText1
            sent := (initSt "L" "I" "C").sent ++ ["r"] }, []) :=
  ⟨by decide, by decide,
    c9_amended (initSt "L" "I" "C") discText1 2 [] (by decide) (by decide)⟩

/-- C10: constructing the tool checks the loader path first and then the
image path against the filesystem; a missing path yields the printed
message and process exit status 1, before any child process exists; when
both paths exist, construction stores both paths unchanged, has spawned
nothing (child is none) and has sent nothing. -/
theorem c10_init_path_checks (fs : String → Bool) (ul im cmd : String) :
    (fs ul = false → mkUpgradeTool fs ul im cmd =
      .error ("Upgrade loader file path does not exist.", 1)) ∧
    (fs ul = true → fs im = false → mkUpgradeTool fs ul im cmd =
      .error ("Image file path does not exist.", 1)) ∧
    (fs ul = true → fs im = true →
      mkUpgradeTool fs ul im cmd = .ok (initSt ul im cmd)) ∧
    (initSt ul im cmd).ul_file = ul ∧ (initSt ul im cmd).im_file = im ∧
    (initSt ul im cmd).child = none ∧ (initSt ul im cmd).sent = [] ∧
    (fs ul = false → ∀ evs, mainExit fs ul im evs = some 1) ∧
    (fs ul = true → fs im = false → ∀ evs, mainExit fs ul im evs = some 1) := by
  refine ⟨?_, ?_, ?_, rfl, rfl, rfl, rfl, ?_, ?_⟩
  · intro h; simp [mkUpgradeTool, h]
  · intro h1 h2; simp [mkUpgradeTool, h1, h2]
  · intro h1 h2; simp [mkUpgradeTool, h1, h2]
  · intro h evs; simp [mainExit, mkUpgradeTool, h]
  · intro h1 h2 evs; simp [mainExit, mkUpgradeTool, h1, h2]

/-- C10 (witness): the theorem applied to the filesystem on which exactly
the paths L and I exist: construction succeeds, stores both paths, and has
spawned nothing. -/
theorem c10_init_path_checks_witness :
    fsBoth "L" = true ∧ fsBoth "I" = true ∧
    mkUpgradeTool fsBoth "L" "I" "C" = .ok (initSt "L" "I" "C") :=
  ⟨by decide, by decide,
    (c10_init_path_checks fsBoth "L" "I" "C").2.2.1 (by decide) (by decide)⟩
